import Mathlib

/-!
The forwarding proxy of `od2kproxy/client.go`.

A shallow embedding of `ProxyClient` (`NewProxyClient`, `buildURL`,
`ErrorResponse`, `DoRequest`, `Handler`) together with the small part of the Go
standard library the handler runs against (`http.Header`, the response writer,
`strings.Contains`, `fmt.Sprintf`), followed by theorems about the handler's
observable output.

Conventions.
* A Go `string` is a Lean `String`; a Go `[]byte` / body stream is `Bytes`.
  `bytesOf` is the conversion `[]byte(s)` (UTF-8).
* A body (`io.ReadCloser`) is the sequence of bytes it yields when read to the
  end.
* `http.Header` (`map[string][]string`) is an association list; `for key :=
  range h` visits the entries in list order. Go leaves the order unspecified,
  and every theorem below holds for every order since it holds for every list.
* The network and `compress/gzip` are not part of the repository: the outcome
  of the upstream call is a parameter (`Upstream`), and so are the compressor
  (`Gzip`) and the content-type detection of the response writer (`Runtime`).
* The writer starts as a fresh recorder (`NewRecorder`), as the server and the
  tests hand it to the handler. `log.Printf` has no effect on the response and
  is left out.
* Go `int` is taken to be 64 bits wide.
-/

namespace Od2kproxy

/-! ## Go library layer -/

/-- A byte slice. -/
abbrev Bytes := List UInt8

/-- The conversion `[]byte(s)`: the UTF-8 encoding of `s`. -/
def bytesOf (s : String) : Bytes := s.toList.flatMap String.utf8EncodeChar

/-- Go `strings.Contains(s, substr)`. -/
def stringsContains (s substr : String) : Bool :=
  decide (substr.toList <:+: s.toList)

/-- Go `fmt.Sprintf("%d", n)` for a non-negative `n`. -/
def sprintfD (n : Nat) : String := toString n

/-- Go `textproto.validHeaderFieldByte`: the token characters of RFC 7230. -/
def validHeaderFieldByte (c : Char) : Bool :=
  c.isAlphanum || c.toNat ∈ [33, 35, 36, 37, 38, 39, 42, 43, 45, 46, 94, 95, 96, 124, 126]

/-- The rewriting loop of Go `textproto.canonicalMIMEHeaderKey`: upper case for
the first letter and for a letter after a dash, lower case elsewhere. -/
def canonicalLoop : Bool → List Char → List Char
  | _, [] => []
  | upper, c :: cs =>
    let c1 :=
      if upper && c.isLower then c.toUpper
      else if !upper && c.isUpper then c.toLower
      else c
    c1 :: canonicalLoop (c1 == '-') cs

/-- Go `textproto.CanonicalMIMEHeaderKey`: a key holding a byte that is not a
token character is returned unchanged. -/
def CanonicalMIMEHeaderKey (s : String) : String :=
  if s.toList.all validHeaderFieldByte then String.mk (canonicalLoop true s.toList) else s

/-- Go `http.Header`, a `map[string][]string`. -/
abbrev Header := List (String × List String)

/-- The map assignment `h[k] = vs`. -/
def Header.assign : Header → String → List String → Header
  | [], k, vs => [(k, vs)]
  | (k1, vs1) :: t, k, vs =>
    if k1 = k then (k, vs) :: t else (k1, vs1) :: Header.assign t k vs

/-- Go `Header.Get`: the first value stored under the canonical form of `key`,
`""` when there is none. -/
def Header.Get (h : Header) (key : String) : String :=
  match h.lookup (CanonicalMIMEHeaderKey key) with
  | some (v :: _) => v
  | _ => ""

/-- Go `Header.Set`: the canonical form of `key` is bound to the single value. -/
def Header.Set (h : Header) (key value : String) : Header :=
  h.assign (CanonicalMIMEHeaderKey key) [value]

/-- The invariant of a header map read off the wire by `net/http`: the keys are
pairwise distinct (it is a map) and each is in canonical form. -/
def Header.WF (h : Header) : Prop :=
  (h.map Prod.fst).Nodup ∧ ∀ e ∈ h, CanonicalMIMEHeaderKey e.1 = e.1

instance (h : Header) : Decidable h.WF := by
  unfold Header.WF; infer_instance

/-- The response writer (`http.ResponseWriter`, as recorded by
`httptest.ResponseRecorder`): the header map, the status code once the header
has been written, and the bytes written so far. -/
structure ResponseWriter where
  HeaderMap : Header
  Code : Option Nat
  Body : Bytes
  deriving DecidableEq, Repr

/-- Go `httptest.NewRecorder()`: nothing set, nothing written. -/
def NewRecorder : ResponseWriter := { HeaderMap := [], Code := none, Body := [] }

/-- The part of the Go runtime behind a write to the response: the library
function `http.DetectContentType`, and, for a body, the number of bytes its
first `Read` yields. `io.Copy` hands each read to `Write`, and the writer sniffs
the content type from the first one. -/
structure Runtime where
  DetectContentType : Bytes → String
  FirstRead : Bytes → Nat
  FirstRead_pos : ∀ b, 0 < FirstRead b

/-- Go `w.WriteHeader(code)`: only the first call counts. -/
def ResponseWriter.WriteHeader (w : ResponseWriter) (code : Nat) : ResponseWriter :=
  match w.Code with
  | some _ => w
  | none => { w with Code := some code }

/-- Go `w.Header().Set(key, value)`. -/
def ResponseWriter.SetHeader (w : ResponseWriter) (key value : String) : ResponseWriter :=
  { w with HeaderMap := w.HeaderMap.Set key value }

/-- The recorder's `writeHeader(b, "")`, the implicit header of a first `Write`:
nothing when the header has been written; otherwise, when the header map has no
`Content-Type` entry and no `Transfer-Encoding` value, `Content-Type` is set to
the type detected in `b`, and the header is written with status 200. -/
def ResponseWriter.writeHeader (w : ResponseWriter) (rt : Runtime) (b : Bytes) :
    ResponseWriter :=
  match w.Code with
  | some _ => w
  | none =>
    let hasType := (List.lookup "Content-Type" w.HeaderMap).isSome
    let hasTE := w.HeaderMap.Get "Transfer-Encoding" != ""
    let w1 :=
      if !hasType && !hasTE then w.SetHeader "Content-Type" (rt.DetectContentType b) else w
    w1.WriteHeader 200

/-- Go `w.Write(b)`: writes the implicit header if none has been written, then
appends `b`. -/
def ResponseWriter.Write (w : ResponseWriter) (rt : Runtime) (b : Bytes) : ResponseWriter :=
  let w1 := w.writeHeader rt b
  { w1 with Body := w1.Body ++ b }

/-- Go `io.Copy(w, body)`: the bytes of `body` are written to `w`, the first
read in a first `Write` and the rest after it; an empty body causes no write. -/
def ioCopy (rt : Runtime) (w : ResponseWriter) (body : Bytes) : ResponseWriter :=
  if body = [] then w
  else
    (w.Write rt (body.take (rt.FirstRead body))).Write rt (body.drop (rt.FirstRead body))

/-- The status code the caller receives: the one written, or 200 when the
handler returns without having written one. -/
def ResponseWriter.status (w : ResponseWriter) : Nat := w.Code.getD 200

/-- The library `compress/gzip` as the handler uses it (`gzip.NewWriter`,
`io.Copy`, `Close`): a function from the input to the compressed stream. Every
gzip stream starts with the two identification bytes of RFC 1952. -/
structure Gzip where
  compress : Bytes → Bytes
  magic : ∀ b, (compress b).take 2 = [0x1f, 0x8b]

/-- CRC-32 (RFC 1952, section 8), one bit. -/
def crcStep (c : Nat) : Nat :=
  if c % 2 = 1 then Nat.xor 0xEDB88320 (c / 2) else c / 2

/-- CRC-32, one byte. -/
def crcByte (crc : Nat) (b : UInt8) : Nat :=
  crcStep^[8] (Nat.xor crc b.toNat)

/-- CRC-32 of a byte sequence. -/
def crc32 (bs : Bytes) : Nat :=
  Nat.xor (bs.foldl crcByte 0xFFFFFFFF) 0xFFFFFFFF

/-- Little-endian encoding on two bytes. -/
def le16 (n : Nat) : Bytes := [UInt8.ofNat (n % 256), UInt8.ofNat (n / 256 % 256)]

/-- Little-endian encoding on four bytes. -/
def le32 (n : Nat) : Bytes := le16 (n % 65536) ++ le16 (n / 65536 % 65536)

/-- One stored (uncompressed) DEFLATE block, RFC 1951 section 3.2.4. -/
def storedBlock (final : Bool) (c : Bytes) : Bytes :=
  (if final then 1 else 0) :: (le16 c.length ++ le16 (65535 - c.length) ++ c)

/-- A DEFLATE stream of stored blocks, the last one marked final. -/
def storedBlocks : List Bytes → Bytes
  | [] => storedBlock true []
  | [c] => storedBlock true c
  | c :: d :: cs => storedBlock false c ++ storedBlocks (d :: cs)

/-- A reference instance of `Gzip`: the RFC 1952 container (ten-byte header,
CRC-32 and length trailer) around stored DEFLATE blocks. Go's compressor emits a
shorter stream of the same format; the theorems hold for every instance, and
this one serves to evaluate them. -/
def storedGzip : Gzip where
  compress b :=
    0x1f :: 0x8b :: 8 :: 0 :: 0 :: 0 :: 0 :: 0 :: 0 :: 0xff ::
      (storedBlocks (b.toChunks 65535) ++ (le32 (crc32 b) ++ le32 (b.length % 4294967296)))
  magic := by intro b; rfl

/-- The bytes `DetectContentType` counts as binary data. -/
def isBinaryByte (b : UInt8) : Bool :=
  b.toNat ≤ 8 || b.toNat = 11 || (14 ≤ b.toNat && b.toNat ≤ 26) || (28 ≤ b.toNat && b.toNat ≤ 31)

/-- A reference instance of `Runtime`: of the rules of `DetectContentType` the
last two, plain text for data without binary bytes and the fallback
`application/octet-stream`; a first read of up to 32768 bytes, the buffer of
`io.Copy`. The theorems hold for every instance, and this one serves to
evaluate them. -/
def textRuntime : Runtime where
  DetectContentType b :=
    if (b.take 512).any isBinaryByte then "application/octet-stream"
    else "text/plain; charset=utf-8"
  FirstRead _ := 32768
  FirstRead_pos := by intro _; show (0 : Nat) < 32768; decide

/-! ## The data model of `client.go` -/

/-- The part of `url.URL` the proxy reads. -/
structure URL where
  Path : String
  RawQuery : String
  deriving DecidableEq, Repr

/-- The inbound `*http.Request`: its URL and its header. -/
structure InboundRequest where
  URL : URL
  Header : Header
  deriving DecidableEq, Repr

/-- The upstream `*http.Request` built by `DoRequest`. `BasicAuth` records the
credentials given to `SetBasicAuth`. -/
structure Request where
  Method : String
  URL : String
  BasicAuth : Option (String × String)
  Header : Header
  deriving DecidableEq, Repr

/-- Go `*http.Response`, the fields `ErrorResponse` sets plus the header. A
response without a header map (`nil`) has the empty one; `Request` is `none`
for a nil request. A status code is the three-digit number of the status
line. -/
structure Response where
  Status : String
  StatusCode : Nat
  Proto : String
  ProtoMajor : Nat
  ProtoMinor : Nat
  Header : Header
  Body : Bytes
  ContentLength : Int
  Request : Option Request
  deriving DecidableEq, Repr

/-- The error of `http.Client.Do`, seen through `net.Error`: whether it is a
timeout, and its message. -/
structure NetError where
  Timeout : Bool
  Error : String
  deriving DecidableEq, Repr

/-- What the outside world does for one call: `NewRequestError url` is the
error of `http.NewRequest("GET", url, nil)`, if any (the URL does not parse),
and `Do req` is the outcome of `client.Do(req)`. -/
structure Upstream where
  NewRequestError : String → Option String
  Do : Request → Except NetError Response

/-- Go `http.Client`: the timeout, a `time.Duration` (signed 64-bit count of
nanoseconds). -/
structure HttpClient where
  Timeout : Int
  deriving DecidableEq, Repr

/-- Structure `ProxyClient` of `client.go`. -/
structure ProxyClient where
  client : HttpClient
  username : String
  password : String
  baseURL : String
  deriving DecidableEq, Repr

/-- The settings `viper` serves: the keys `NewProxyClient` reads, each present
or absent. `http_timeout` is a Go `int` (64 bits). -/
structure Settings where
  http_timeout : Option Int
  username : Option String
  password : Option String
  deriving DecidableEq, Repr

/-- Go `viper.GetInt`: 0 for an absent key. -/
def viperGetInt (v : Option Int) : Int := v.getD 0

/-- Go `viper.GetString`: `""` for an absent key. -/
def viperGetString (v : Option String) : String := v.getD ""

/-- Two's-complement wrap-around to a signed 64-bit integer. -/
def wrapInt64 (x : Int) : Int := (x + 2 ^ 63) % 2 ^ 64 - 2 ^ 63

/-- Go `time.Second`, in nanoseconds. -/
def timeSecond : Int := 1000000000

/-- The product `time.Second * time.Duration(n)` in `int64` arithmetic. -/
def secondsDuration (n : Int) : Int := wrapInt64 (timeSecond * wrapInt64 n)

/-! ## The operations of `client.go` -/

/-- Function `NewProxyClient`: the client, or the error message. -/
def NewProxyClient (cfg : Settings) : Except String ProxyClient :=
  let timeout := viperGetInt cfg.http_timeout
  let timeoutHTTP := secondsDuration timeout
  let timeoutHTTP := if timeout = 0 then secondsDuration 30 else timeoutHTTP
  let client : HttpClient := { Timeout := timeoutHTTP }
  let username := viperGetString cfg.username
  if username = "" then .error "username is required"
  else
    let password := viperGetString cfg.password
    if password = "" then .error "password is required"
    else
      .ok { client := client, username := username, password := password,
            baseURL := "https://gegevensmagazijn.tweedekamer.nl" }

/-- Method `buildURL`. -/
def ProxyClient.buildURL (p : ProxyClient) (path query : String) : String :=
  if query = "" then p.baseURL ++ path
  else p.baseURL ++ path ++ "?" ++ query

/-- Method `ErrorResponse`: no header map is set. -/
def ProxyClient.ErrorResponse (_p : ProxyClient) (status : String) (code : Nat)
    (body : Bytes) (req : Option Request) : Response :=
  { Status := status, StatusCode := code, Proto := "HTTP/1.1", ProtoMajor := 1,
    ProtoMinor := 1, Header := [], Body := body, ContentLength := 0, Request := req }

/-- The request `DoRequest` sends: a GET of `url` with basic authentication and
`Accept-Encoding: gzip`. -/
def ProxyClient.upstreamRequest (p : ProxyClient) (url : String) : Request :=
  { Method := "GET", URL := url, BasicAuth := some (p.username, p.password),
    Header := Header.Set [] "Accept-Encoding" "gzip" }

/-- Method `DoRequest`. -/
def ProxyClient.DoRequest (p : ProxyClient) (net : Upstream) (uri : URL) : Response :=
  let url := p.buildURL uri.Path uri.RawQuery
  match net.NewRequestError url with
  | some err => p.ErrorResponse "500 Invalid Proxy Request" 504 (bytesOf err) none
  | none =>
    let req := p.upstreamRequest url
    match net.Do req with
    | .error err =>
      if err.Timeout then
        p.ErrorResponse "504 Proxy Timeout" 504 (bytesOf "Proxy Timeout") (some req)
      else
        p.ErrorResponse "500 Internal Proxy Error" 500 (bytesOf err.Error) (some req)
    | .ok resp => resp

/-- The header loop of `Handler`: every key of the upstream header is set on
the writer to the value `Get` finds for it, and `gzipped` records whether one
of these values is `"gzip"`. -/
def forwardHeaders (h : Header) (w : ResponseWriter) : ResponseWriter × Bool :=
  h.foldl
    (fun (acc : ResponseWriter × Bool) e =>
      let value := h.Get e.1
      (acc.1.SetHeader e.1 value, if value = "gzip" then true else acc.2))
    (w, false)

/-- Method `Handler`: the state of the writer `w` when the handler returns. -/
def ProxyClient.Handler (p : ProxyClient) (gz : Gzip) (rt : Runtime) (net : Upstream)
    (w : ResponseWriter) (r : InboundRequest) : ResponseWriter :=
  let resp := p.DoRequest net r.URL
  if resp.StatusCode > 500 then
    ioCopy rt (w.WriteHeader resp.StatusCode) resp.Body
  else
    let (w1, gzipped) := forwardHeaders resp.Header w
    if gzipped then
      ioCopy rt w1 resp.Body
    else
      let encoding := r.Header.Get "Accept-Encoding"
      if stringsContains encoding "gzip" then
        let buf := gz.compress resp.Body
        let w2 := w1.SetHeader "Content-Encoding" "gzip"
        let w3 := w2.SetHeader "Content-Length" (sprintfD buf.length)
        (w3.WriteHeader resp.StatusCode).Write rt buf
      else
        ioCopy rt w1 resp.Body


/-! ## Sample inputs

The inputs of `client_test.go`, used to evaluate the theorems below. -/

/-- A client as the tests set it up: a two-second timeout, the test credentials
and the address of the mock server. -/
def testClient : ProxyClient :=
  { client := { Timeout := 2000000000 }, username := "testuser", password := "secret",
    baseURL := "http://127.0.0.1:8080" }

/-- A response received from the upstream server. -/
def upstreamResponse (code : Nat) (h : Header) (body : String) : Response :=
  { Status := "", StatusCode := code, Proto := "HTTP/1.1", ProtoMajor := 1, ProtoMinor := 1,
    Header := h, Body := bytesOf body, ContentLength := (bytesOf body).length, Request := none }

/-- An upstream that answers every request with `resp`. -/
def upstreamServing (resp : Response) : Upstream :=
  { NewRequestError := fun _ => none, Do := fun _ => .ok resp }

/-- An upstream on which every call fails with `err`. -/
def upstreamFailing (err : NetError) : Upstream :=
  { NewRequestError := fun _ => none, Do := fun _ => .error err }

/-- The inbound request of the tests, `GET /foo/1`, with the given
`Accept-Encoding` header or none. -/
def inboundGet (accept : Option String) : InboundRequest :=
  { URL := { Path := "/foo/1", RawQuery := "" },
    Header := match accept with
      | none => []
      | some a => [("Accept-Encoding", [a])] }

/-- The header of an uncompressed text response of `n` bytes. -/
def plainHeader (n : Nat) : Header :=
  [("Content-Length", [sprintfD n]), ("Content-Type", ["text/plain; charset=utf-8"]),
   ("Date", ["Mon, 02 Jan 2006 15:04:05 GMT"])]

/-- The header of `TestHandlerCompressed`: the upstream marks its body as
gzip-encoded. -/
def gzipHeader : Header :=
  [("Content-Encoding", ["gzip"]), ("Content-Type", ["application/json"]),
   ("Content-Length", ["25"])]

/-- The body of `TestHandlerCompressed`. -/
def gzippedBody : String := "\x7b\"data\": already gzipped\x7d"

theorem lookup_cons_eq (k k1 : String) (vs : List String) (t : Header) :
    List.lookup k ((k1, vs) :: t) = if k = k1 then some vs else List.lookup k t := by
  by_cases hk : k = k1
  · subst hk; simp [List.lookup]
  · have : (k == k1) = false := by simpa using hk
    simp [List.lookup, this, hk]

theorem lookup_assign (h : Header) (k k1 : String) (vs : List String) :
    List.lookup k (h.assign k1 vs) = if k = k1 then some vs else List.lookup k h := by
  induction h with
  | nil => simp [Header.assign, lookup_cons_eq]
  | cons e t ih =>
    obtain ⟨k2, vs2⟩ := e
    by_cases h21 : k2 = k1
    · subst h21
      simp only [Header.assign, if_true, lookup_cons_eq]
      split <;> rfl
    · simp only [Header.assign, h21, if_false, lookup_cons_eq, ih]
      by_cases hk2 : k = k2
      · subst hk2; simp [h21]
      · simp [hk2]

theorem lookup_Set (h : Header) (k key value : String) :
    List.lookup k (h.Set key value) =
      if k = CanonicalMIMEHeaderKey key then some [value] else List.lookup k h := by
  simp [Header.Set, lookup_assign]

theorem lookup_isSome_of_mem_keys (h : Header) (k : String) (hk : k ∈ h.map Prod.fst) :
    ∃ vs, List.lookup k h = some vs ∧ (k, vs) ∈ h := by
  induction h with
  | nil => simp at hk
  | cons e t ih =>
    obtain ⟨k2, vs2⟩ := e
    by_cases hk2 : k = k2
    · subst hk2; exact ⟨vs2, by simp [lookup_cons_eq], by simp⟩
    · have hk' : k ∈ t.map Prod.fst := by
        simp only [List.map_cons, List.mem_cons] at hk
        rcases hk with hk | hk
        · exact absurd hk hk2
        · exact hk
      obtain ⟨vs, h1, h2⟩ := ih hk'
      exact ⟨vs, by simp [lookup_cons_eq, hk2, h1], by simp [h2]⟩

theorem lookup_eq_none_of_not_mem_keys (h : Header) (k : String) (hk : k ∉ h.map Prod.fst) :
    List.lookup k h = none := by
  induction h with
  | nil => rfl
  | cons e t ih =>
    obtain ⟨k2, vs2⟩ := e
    simp only [List.map_cons, List.mem_cons, not_or] at hk
    simp [lookup_cons_eq, hk.1, ih hk.2]

theorem lookup_of_mem_nodup (h : Header) (hn : (h.map Prod.fst).Nodup) (k : String)
    (vs : List String) (hm : (k, vs) ∈ h) : List.lookup k h = some vs := by
  induction h with
  | nil => simp at hm
  | cons e t ih =>
    obtain ⟨k2, vs2⟩ := e
    simp only [List.map_cons, List.nodup_cons] at hn
    simp only [List.mem_cons, Prod.mk.injEq] at hm
    rcases hm with ⟨h1, h2⟩ | hm
    · subst h1; subst h2; simp [lookup_cons_eq]
    · have hne : k ≠ k2 := by
        intro hk; subst hk
        exact hn.1 (List.mem_map.mpr ⟨(k, vs), hm, rfl⟩)
      simp [lookup_cons_eq, hne, ih hn.2 hm]

/-! ## Lemmas on the header loop -/

theorem forwardLoop_spec (h0 : Header) (l : Header)
    (hc : ∀ e ∈ l, CanonicalMIMEHeaderKey e.1 = e.1) (acc : ResponseWriter × Bool) :
    (l.foldl
      (fun (acc : ResponseWriter × Bool) e =>
        (acc.1.SetHeader e.1 (h0.Get e.1), if h0.Get e.1 = "gzip" then true else acc.2))
      acc).1.Code = acc.1.Code ∧
    (l.foldl
      (fun (acc : ResponseWriter × Bool) e =>
        (acc.1.SetHeader e.1 (h0.Get e.1), if h0.Get e.1 = "gzip" then true else acc.2))
      acc).1.Body = acc.1.Body ∧
    (∀ k, List.lookup k (l.foldl
      (fun (acc : ResponseWriter × Bool) e =>
        (acc.1.SetHeader e.1 (h0.Get e.1), if h0.Get e.1 = "gzip" then true else acc.2))
      acc).1.HeaderMap =
        if k ∈ l.map Prod.fst then some [h0.Get k] else List.lookup k acc.1.HeaderMap) ∧
    ((l.foldl
      (fun (acc : ResponseWriter × Bool) e =>
        (acc.1.SetHeader e.1 (h0.Get e.1), if h0.Get e.1 = "gzip" then true else acc.2))
      acc).2 = true ↔ (acc.2 = true ∨ ∃ e ∈ l, h0.Get e.1 = "gzip")) := by
  induction l generalizing acc with
  | nil => simp
  | cons e t ih =>
    have hct : ∀ e ∈ t, CanonicalMIMEHeaderKey e.1 = e.1 := fun x hx =>
      hc x (List.mem_cons_of_mem _ hx)
    have he : CanonicalMIMEHeaderKey e.1 = e.1 := hc e (List.mem_cons_self _ _)
    obtain ⟨h1, h2, h3, h4⟩ :=
      ih hct (acc.1.SetHeader e.1 (h0.Get e.1), if h0.Get e.1 = "gzip" then true else acc.2)
    simp only [List.foldl_cons]
    refine ⟨by rw [h1]; rfl, by rw [h2]; rfl, ?_, ?_⟩
    · intro k
      rw [h3 k]
      simp only [ResponseWriter.SetHeader, lookup_Set, he, List.map_cons, List.mem_cons]
      by_cases hkt : k ∈ t.map Prod.fst
      · simp [hkt]
      · by_cases hke : k = e.1
        · subst hke; simp
        · simp [hkt, hke]
    · rw [h4]
      by_cases hg : h0.Get e.1 = "gzip"
      · simp [hg]
      · simp [hg]

theorem forwardHeaders_Code (h : Header) (w : ResponseWriter)
    (hc : ∀ e ∈ h, CanonicalMIMEHeaderKey e.1 = e.1) :
    (forwardHeaders h w).1.Code = w.Code :=
  (forwardLoop_spec h h hc (w, false)).1

theorem forwardHeaders_Body (h : Header) (w : ResponseWriter)
    (hc : ∀ e ∈ h, CanonicalMIMEHeaderKey e.1 = e.1) :
    (forwardHeaders h w).1.Body = w.Body :=
  (forwardLoop_spec h h hc (w, false)).2.1

theorem Get_eq_of_lookup (h : Header) (k : String) (hk : CanonicalMIMEHeaderKey k = k)
    (vs : List String) (hl : List.lookup k h = some vs) : h.Get k = vs.headD "" := by
  unfold Header.Get
  rw [hk, hl]
  cases vs <;> rfl

/-- On a header with canonical keys the loop leaves, under every key, the single
first value of the upstream entry. -/
theorem forwardHeaders_lookup (h : Header) (w : ResponseWriter)
    (hc : ∀ e ∈ h, CanonicalMIMEHeaderKey e.1 = e.1) (k : String) :
    List.lookup k (forwardHeaders h w).1.HeaderMap =
      if k ∈ h.map Prod.fst then (List.lookup k h).map (fun vs => [vs.headD ""])
      else List.lookup k w.HeaderMap := by
  have h3 := (forwardLoop_spec h h hc (w, false)).2.2.1 k
  unfold forwardHeaders
  rw [h3]
  by_cases hk : k ∈ h.map Prod.fst
  · obtain ⟨vs, hl, hm⟩ := lookup_isSome_of_mem_keys h k hk
    have hkc : CanonicalMIMEHeaderKey k = k := hc (k, vs) hm
    simp [hk, hl, Get_eq_of_lookup h k hkc vs hl]
  · simp [hk]

theorem forwardHeaders_gzipped (h : Header) (w : ResponseWriter) (hwf : h.WF) :
    (forwardHeaders h w).2 = true ↔ ∃ e ∈ h, e.2.head? = some "gzip" := by
  have h4 := (forwardLoop_spec h h hwf.2 (w, false)).2.2.2
  unfold forwardHeaders
  rw [h4]
  have key : ∀ e ∈ h, (h.Get e.1 = "gzip" ↔ e.2.head? = some "gzip") := by
    intro e he
    have hl := lookup_of_mem_nodup h hwf.1 e.1 e.2 he
    rw [Get_eq_of_lookup h e.1 (hwf.2 e he) e.2 hl]
    cases e.2 with
    | nil => simp
    | cons v vs => simp
  constructor
  · rintro (hf | ⟨e, he, hg⟩)
    · exact absurd hf (by simp)
    · exact ⟨e, he, (key e he).mp hg⟩
  · rintro ⟨e, he, hg⟩
    exact Or.inr ⟨e, he, (key e he).mpr hg⟩

theorem forwardHeaders_lookup_new (h : Header)
    (hc : ∀ e ∈ h, CanonicalMIMEHeaderKey e.1 = e.1) (k : String) :
    List.lookup k (forwardHeaders h NewRecorder).1.HeaderMap =
      (List.lookup k h).map (fun vs => [vs.headD ""]) := by
  rw [forwardHeaders_lookup h NewRecorder hc k]
  by_cases hk : k ∈ h.map Prod.fst
  · simp [hk]
  · simp [hk, lookup_eq_none_of_not_mem_keys h k hk, NewRecorder]

/-- The body of `Handler` with the pair returned by the header loop taken apart
by its projections. -/
theorem Handler_eq (p : ProxyClient) (gz : Gzip) (rt : Runtime) (net : Upstream) (w : ResponseWriter)
    (r : InboundRequest) :
    p.Handler gz rt net w r =
      if (p.DoRequest net r.URL).StatusCode > 500 then
        ioCopy rt (w.WriteHeader (p.DoRequest net r.URL).StatusCode) (p.DoRequest net r.URL).Body
      else if (forwardHeaders (p.DoRequest net r.URL).Header w).2 = true then
        ioCopy rt (forwardHeaders (p.DoRequest net r.URL).Header w).1 (p.DoRequest net r.URL).Body
      else if stringsContains (r.Header.Get "Accept-Encoding") "gzip" = true then
        ((((forwardHeaders (p.DoRequest net r.URL).Header w).1.SetHeader
            "Content-Encoding" "gzip").SetHeader "Content-Length"
            (sprintfD (gz.compress (p.DoRequest net r.URL).Body).length)).WriteHeader
            (p.DoRequest net r.URL).StatusCode).Write rt (gz.compress (p.DoRequest net r.URL).Body)
      else
        ioCopy rt (forwardHeaders (p.DoRequest net r.URL).Header w).1 (p.DoRequest net r.URL).Body := by
  rfl

theorem Write_of_some (w : ResponseWriter) (rt : Runtime) (b : Bytes) (c : Nat)
    (hw : w.Code = some c) :
    w.Write rt b = { HeaderMap := w.HeaderMap, Code := some c, Body := w.Body ++ b } := by
  cases w with
  | mk hm code body =>
    simp only at hw
    subst hw
    rfl

/-- A copy into a writer whose header has been written appends the body and
changes nothing else. -/
theorem ioCopy_of_some (rt : Runtime) (w : ResponseWriter) (b : Bytes) (c : Nat)
    (hw : w.Code = some c) :
    ioCopy rt w b = { HeaderMap := w.HeaderMap, Code := some c, Body := w.Body ++ b } := by
  unfold ioCopy
  split
  · next hb =>
    cases w with
    | mk hm code body =>
      simp only at hw
      subst hw
      simp [hb]
  · rw [Write_of_some w rt _ c hw, Write_of_some _ rt _ c rfl]
    simp [List.append_assoc]

/-- A copy of a non-empty body into a writer whose header has not been written:
the first write sets `Content-Type` when the header map has neither that entry
nor a `Transfer-Encoding` value, and writes the header with status 200. -/
theorem ioCopy_of_none (rt : Runtime) (w : ResponseWriter) (b : Bytes)
    (hw : w.Code = none) (hb : b ≠ []) :
    ioCopy rt w b =
      { HeaderMap :=
          if List.lookup "Content-Type" w.HeaderMap = none ∧
              w.HeaderMap.Get "Transfer-Encoding" = "" then
            w.HeaderMap.Set "Content-Type" (rt.DetectContentType (b.take (rt.FirstRead b)))
          else w.HeaderMap,
        Code := some 200, Body := w.Body ++ b } := by
  cases w with
  | mk hm code body =>
    simp only at hw
    subst hw
    unfold ioCopy
    rw [if_neg hb]
    by_cases h1 : List.lookup "Content-Type" hm = none
    · by_cases h2 : Header.Get hm "Transfer-Encoding" = ""
      · simp [ResponseWriter.Write, ResponseWriter.writeHeader, ResponseWriter.WriteHeader,
          ResponseWriter.SetHeader, h1, h2, List.append_assoc]
      · simp [ResponseWriter.Write, ResponseWriter.writeHeader, ResponseWriter.WriteHeader,
          ResponseWriter.SetHeader, h1, h2, List.append_assoc]
    · have h1' : (List.lookup "Content-Type" hm).isSome = true := by
        cases hl : List.lookup "Content-Type" hm with
        | none => exact absurd hl h1
        | some v => rfl
      simp [ResponseWriter.Write, ResponseWriter.writeHeader, ResponseWriter.WriteHeader,
        ResponseWriter.SetHeader, h1, h1', List.append_assoc]

theorem ioCopy_Body (rt : Runtime) (w : ResponseWriter) (b : Bytes) :
    (ioCopy rt w b).Body = w.Body ++ b := by
  cases hw : w.Code with
  | some c => rw [ioCopy_of_some rt w b c hw]
  | none =>
    by_cases hb : b = []
    · subst hb; simp [ioCopy]
    · rw [ioCopy_of_none rt w b hw hb]

theorem ioCopy_status_of_none (rt : Runtime) (w : ResponseWriter) (b : Bytes)
    (hw : w.Code = none) : (ioCopy rt w b).status = 200 := by
  by_cases hb : b = []
  · subst hb; simp [ioCopy, ResponseWriter.status, hw]
  · rw [ioCopy_of_none rt w b hw hb]; rfl

theorem ioCopy_status_of_some (rt : Runtime) (w : ResponseWriter) (b : Bytes) (c : Nat)
    (hw : w.Code = some c) : (ioCopy rt w b).status = c := by
  rw [ioCopy_of_some rt w b c hw]; rfl

theorem ioCopy_HeaderMap_of_some (rt : Runtime) (w : ResponseWriter) (b : Bytes) (c : Nat)
    (hw : w.Code = some c) : (ioCopy rt w b).HeaderMap = w.HeaderMap := by
  rw [ioCopy_of_some rt w b c hw]

theorem canonical_Content_Type :
    CanonicalMIMEHeaderKey "Content-Type" = "Content-Type" := by decide

/-- The header map after a copy into a writer whose header has not been
written, key by key. -/
theorem ioCopy_lookup_of_none (rt : Runtime) (w : ResponseWriter) (b : Bytes)
    (hw : w.Code = none) (k : String) :
    List.lookup k (ioCopy rt w b).HeaderMap =
      if k = "Content-Type" ∧ b ≠ [] ∧ List.lookup "Content-Type" w.HeaderMap = none ∧
          w.HeaderMap.Get "Transfer-Encoding" = "" then
        some [rt.DetectContentType (b.take (rt.FirstRead b))]
      else List.lookup k w.HeaderMap := by
  by_cases hb : b = []
  · subst hb; simp [ioCopy]
  · rw [ioCopy_of_none rt w b hw hb]
    by_cases hs : List.lookup "Content-Type" w.HeaderMap = none ∧
        w.HeaderMap.Get "Transfer-Encoding" = ""
    · simp only [if_pos hs, lookup_Set, canonical_Content_Type]
      by_cases hk : k = "Content-Type"
      · simp [hk, hb, hs.1, hs.2]
      · simp [hk]
    · simp only [if_neg hs]
      rw [if_neg]
      rintro ⟨_, _, h3, h4⟩
      exact hs ⟨h3, h4⟩

theorem WriteHeader_Write_of_none (w : ResponseWriter) (rt : Runtime) (c : Nat) (b : Bytes)
    (hw : w.Code = none) :
    (w.WriteHeader c).Write rt b =
      { HeaderMap := w.HeaderMap, Code := some c, Body := w.Body ++ b } := by
  cases w with
  | mk hm code body =>
    simp only at hw
    subst hw
    rfl

theorem canonical_Content_Encoding :
    CanonicalMIMEHeaderKey "Content-Encoding" = "Content-Encoding" := by decide

theorem canonical_Content_Length :
    CanonicalMIMEHeaderKey "Content-Length" = "Content-Length" := by decide

theorem Get_forwarded (h : Header) (w : ResponseWriter)
    (hl : ∀ k, List.lookup k w.HeaderMap = (List.lookup k h).map (fun vs => [vs.headD ""]))
    (key : String) : w.HeaderMap.Get key = h.Get key := by
  unfold Header.Get
  rw [hl]
  cases hk : List.lookup (CanonicalMIMEHeaderKey key) h with
  | none => rfl
  | some vs => cases vs <;> rfl

/-- The key-by-key description of the header map after a copy branch, read name
by name: every name but `Content-Type` is as upstream sent it, and so is
`Content-Type` unless the writer had to detect it. -/
theorem copied_header_cases (h out : Header) (body : Bytes) (ct : String)
    (H : ∀ k, List.lookup k out =
      if k = "Content-Type" ∧ body ≠ [] ∧ List.lookup "Content-Type" h = none ∧
          h.Get "Transfer-Encoding" = "" then some [ct]
      else (List.lookup k h).map (fun vs => [vs.headD ""])) :
    (∀ k, k ≠ "Content-Type" →
      List.lookup k out = (List.lookup k h).map (fun vs => [vs.headD ""])) ∧
    (List.lookup "Content-Type" h ≠ none ∨ h.Get "Transfer-Encoding" ≠ "" ∨ body = [] →
      ∀ k, List.lookup k out = (List.lookup k h).map (fun vs => [vs.headD ""])) ∧
    (List.lookup "Content-Type" h = none → h.Get "Transfer-Encoding" = "" → body ≠ [] →
      List.lookup "Content-Type" out = some [ct]) := by
  refine ⟨?_, ?_, ?_⟩
  · intro k hk
    rw [H k, if_neg]
    rintro ⟨h1, _⟩
    exact hk h1
  · intro hc k
    rw [H k, if_neg]
    rintro ⟨_, h2, h3, h4⟩
    rcases hc with hc | hc | hc
    · exact hc h3
    · exact hc h4
    · exact h2 hc
  · intro h3 h4 h2
    rw [H "Content-Type", if_pos ⟨rfl, h2, h3, h4⟩]

theorem not_gzipped_of_plain (h : Header) (w : ResponseWriter) (hwf : h.WF)
    (hplain : ∀ e ∈ h, e.2.head? ≠ some "gzip") : ¬ (forwardHeaders h w).2 = true := by
  rw [forwardHeaders_gzipped h w hwf]
  rintro ⟨e, he, hg⟩
  exact hplain e he hg

/-- The compressing branch, in terms of the response `DoRequest` returned. -/
theorem Handler_compress_branch (p : ProxyClient) (gz : Gzip) (rt : Runtime) (net : Upstream)
    (r : InboundRequest) (hcode : (p.DoRequest net r.URL).StatusCode ≤ 500)
    (hwf : (p.DoRequest net r.URL).Header.WF)
    (hplain : ∀ e ∈ (p.DoRequest net r.URL).Header, e.2.head? ≠ some "gzip")
    (hacc : stringsContains (r.Header.Get "Accept-Encoding") "gzip" = true) :
    (p.Handler gz rt net NewRecorder r).status = (p.DoRequest net r.URL).StatusCode ∧
    (p.Handler gz rt net NewRecorder r).Body = gz.compress (p.DoRequest net r.URL).Body ∧
    List.lookup "Content-Encoding" (p.Handler gz rt net NewRecorder r).HeaderMap = some ["gzip"] ∧
    List.lookup "Content-Length" (p.Handler gz rt net NewRecorder r).HeaderMap =
      some [sprintfD (gz.compress (p.DoRequest net r.URL).Body).length] ∧
    ∀ k, k ≠ "Content-Encoding" → k ≠ "Content-Length" →
      List.lookup k (p.Handler gz rt net NewRecorder r).HeaderMap =
        (List.lookup k (p.DoRequest net r.URL).Header).map (fun vs => [vs.headD ""]) := by
  have hnot : ¬ (p.DoRequest net r.URL).StatusCode > 500 := by omega
  have hg := not_gzipped_of_plain _ NewRecorder hwf hplain
  have hC := forwardHeaders_Code (p.DoRequest net r.URL).Header NewRecorder hwf.2
  have hB := forwardHeaders_Body (p.DoRequest net r.URL).Header NewRecorder hwf.2
  have hL := forwardHeaders_lookup_new (p.DoRequest net r.URL).Header hwf.2
  have hC' : (((forwardHeaders (p.DoRequest net r.URL).Header NewRecorder).1.SetHeader
      "Content-Encoding" "gzip").SetHeader "Content-Length"
      (sprintfD (gz.compress (p.DoRequest net r.URL).Body).length)).Code = none := by
    show (forwardHeaders (p.DoRequest net r.URL).Header NewRecorder).1.Code = none
    rw [hC]; rfl
  rw [Handler_eq, if_neg hnot, if_neg hg, if_pos hacc, WriteHeader_Write_of_none _ rt _ _ hC']
  refine ⟨rfl, ?_, ?_, ?_, ?_⟩
  · show (forwardHeaders (p.DoRequest net r.URL).Header NewRecorder).1.Body ++ _ = _
    rw [hB]; rfl
  · simp [ResponseWriter.SetHeader, lookup_Set, canonical_Content_Encoding,
      canonical_Content_Length]
  · simp [ResponseWriter.SetHeader, lookup_Set, canonical_Content_Length]
  · intro k h1 h2
    simp [ResponseWriter.SetHeader, lookup_Set, canonical_Content_Encoding,
      canonical_Content_Length, h1, h2, hL]

/-- The two copying branches (upstream already gzipped, or a caller that does
not accept gzip), in terms of the response `DoRequest` returned: the body is
copied, no status is written, and the header map holds the upstream headers
plus, when upstream sent neither `Content-Type` nor `Transfer-Encoding` and the
body is not empty, the `Content-Type` the writer detects. -/
theorem Handler_copy_branch (p : ProxyClient) (gz : Gzip) (rt : Runtime) (net : Upstream)
    (r : InboundRequest) (hcode : (p.DoRequest net r.URL).StatusCode ≤ 500)
    (hwf : (p.DoRequest net r.URL).Header.WF)
    (hbranch : (∃ e ∈ (p.DoRequest net r.URL).Header, e.2.head? = some "gzip") ∨
      stringsContains (r.Header.Get "Accept-Encoding") "gzip" = false) :
    (p.Handler gz rt net NewRecorder r).Body = (p.DoRequest net r.URL).Body ∧
    (p.Handler gz rt net NewRecorder r).status = 200 ∧
    ∀ k, List.lookup k (p.Handler gz rt net NewRecorder r).HeaderMap =
        if k = "Content-Type" ∧ (p.DoRequest net r.URL).Body ≠ [] ∧
            List.lookup "Content-Type" (p.DoRequest net r.URL).Header = none ∧
            (p.DoRequest net r.URL).Header.Get "Transfer-Encoding" = "" then
          some [rt.DetectContentType
            ((p.DoRequest net r.URL).Body.take (rt.FirstRead (p.DoRequest net r.URL).Body))]
        else (List.lookup k (p.DoRequest net r.URL).Header).map (fun vs => [vs.headD ""]) := by
  have hnot : ¬ (p.DoRequest net r.URL).StatusCode > 500 := by omega
  have hC := forwardHeaders_Code (p.DoRequest net r.URL).Header NewRecorder hwf.2
  have hB := forwardHeaders_Body (p.DoRequest net r.URL).Header NewRecorder hwf.2
  have hL := forwardHeaders_lookup_new (p.DoRequest net r.URL).Header hwf.2
  have hC' : (forwardHeaders (p.DoRequest net r.URL).Header NewRecorder).1.Code = none := by
    rw [hC]; rfl
  have hB' : (forwardHeaders (p.DoRequest net r.URL).Header NewRecorder).1.Body = [] := by
    rw [hB]; rfl
  have hout : p.Handler gz rt net NewRecorder r =
      ioCopy rt (forwardHeaders (p.DoRequest net r.URL).Header NewRecorder).1
        (p.DoRequest net r.URL).Body := by
    rw [Handler_eq, if_neg hnot]
    by_cases hg : (forwardHeaders (p.DoRequest net r.URL).Header NewRecorder).2 = true
    · rw [if_pos hg]
    · rw [if_neg hg]
      rcases hbranch with hz | ha
      · exact absurd ((forwardHeaders_gzipped _ NewRecorder hwf).mpr hz) hg
      · rw [ha]; rfl
  rw [hout]
  refine ⟨?_, ioCopy_status_of_none _ _ _ hC', ?_⟩
  · rw [ioCopy_Body, hB']; rfl
  · intro k
    rw [ioCopy_lookup_of_none rt _ _ hC' k, hL k, hL "Content-Type",
      Get_forwarded _ _ hL "Transfer-Encoding"]
    simp only [Option.map_eq_none']

/-- Claim C1. When `DoRequest` returns a response with status at most 500 in which
no header's first value is `"gzip"`, and the inbound `Accept-Encoding` contains
`"gzip"`, the handler delivers the upstream status code, the gzip compression of
the whole upstream body, `Content-Encoding: gzip`, `Content-Length` equal to the
decimal length of the compressed body (whatever upstream sent under that name),
and under every other name the first value of the upstream header. -/
theorem Handler_compresses_for_gzip_caller (p : ProxyClient) (gz : Gzip) (rt : Runtime) (net : Upstream)
    (r : InboundRequest) (resp : Response)
    (hresp : p.DoRequest net r.URL = resp)
    (hcode : resp.StatusCode ≤ 500)
    (hwf : resp.Header.WF)
    (hplain : ∀ e ∈ resp.Header, e.2.head? ≠ some "gzip")
    (hacc : stringsContains (r.Header.Get "Accept-Encoding") "gzip" = true) :
    (p.Handler gz rt net NewRecorder r).status = resp.StatusCode ∧
    (p.Handler gz rt net NewRecorder r).Body = gz.compress resp.Body ∧
    List.lookup "Content-Encoding" (p.Handler gz rt net NewRecorder r).HeaderMap = some ["gzip"] ∧
    List.lookup "Content-Length" (p.Handler gz rt net NewRecorder r).HeaderMap =
      some [sprintfD (gz.compress resp.Body).length] ∧
    ∀ k, k ≠ "Content-Encoding" → k ≠ "Content-Length" →
      List.lookup k (p.Handler gz rt net NewRecorder r).HeaderMap =
        (List.lookup k resp.Header).map (fun vs => [vs.headD ""]) := by
  subst hresp
  exact Handler_compress_branch p gz rt net r hcode hwf hplain hacc

theorem Handler_compresses_for_gzip_caller_witness :
    (testClient.Handler storedGzip textRuntime (upstreamServing (upstreamResponse 200 (plainHeader 4) "aaaa"))
        NewRecorder (inboundGet (some "gzip"))).status = 200 ∧
    (testClient.Handler storedGzip textRuntime (upstreamServing (upstreamResponse 200 (plainHeader 4) "aaaa"))
        NewRecorder (inboundGet (some "gzip"))).Body = storedGzip.compress (bytesOf "aaaa") ∧
    List.lookup "Content-Encoding"
      (testClient.Handler storedGzip textRuntime (upstreamServing (upstreamResponse 200 (plainHeader 4) "aaaa"))
        NewRecorder (inboundGet (some "gzip"))).HeaderMap = some ["gzip"] ∧
    List.lookup "Content-Length"
      (testClient.Handler storedGzip textRuntime (upstreamServing (upstreamResponse 200 (plainHeader 4) "aaaa"))
        NewRecorder (inboundGet (some "gzip"))).HeaderMap =
      some [sprintfD (storedGzip.compress (bytesOf "aaaa")).length] ∧
    ∀ k, k ≠ "Content-Encoding" → k ≠ "Content-Length" →
      List.lookup k
        (testClient.Handler storedGzip textRuntime (upstreamServing (upstreamResponse 200 (plainHeader 4) "aaaa"))
          NewRecorder (inboundGet (some "gzip"))).HeaderMap =
        (List.lookup k (plainHeader 4)).map (fun vs => [vs.headD ""]) :=
  Handler_compresses_for_gzip_caller testClient storedGzip textRuntime
    (upstreamServing (upstreamResponse 200 (plainHeader 4) "aaaa")) (inboundGet (some "gzip"))
    (upstreamResponse 200 (plainHeader 4) "aaaa") rfl (by decide) (by decide) (by decide) (by decide)

/-- Claim C4, evaluated where it fails. The upstream answers 404 to a caller that
sends no `Accept-Encoding`: the handler copies headers and body without calling
`WriteHeader`, so the caller receives status 200, and so does every caller when
the 404 carries `Content-Encoding: gzip`. The first exchange repeated with
`Accept-Encoding: gzip` goes through the compressing branch, which does call
`WriteHeader(resp.StatusCode)`, and delivers 404. -/
theorem Handler_drops_upstream_status :
    (testClient.DoRequest
        (upstreamServing (upstreamResponse 404 (plainHeader 4) "gone")) (inboundGet none).URL).StatusCode
      = 404 ∧
    (testClient.Handler storedGzip textRuntime (upstreamServing (upstreamResponse 404 (plainHeader 4) "gone"))
        NewRecorder (inboundGet none)).status = 200 ∧
    (testClient.Handler storedGzip textRuntime (upstreamServing (upstreamResponse 404 gzipHeader gzippedBody))
        NewRecorder (inboundGet (some "gzip"))).status = 200 ∧
    (testClient.Handler storedGzip textRuntime (upstreamServing (upstreamResponse 404 (plainHeader 4) "gone"))
        NewRecorder (inboundGet (some "gzip"))).status = 404 := by
  refine ⟨rfl, ?_, ?_, ?_⟩ <;> decide

theorem Write_after_WriteHeader (w : ResponseWriter) (rt : Runtime) (c : Nat) (b : Bytes) :
    ((w.WriteHeader c).Write rt b).HeaderMap = w.HeaderMap ∧
    ((w.WriteHeader c).Write rt b).Body = w.Body ++ b := by
  cases hw : w.Code with
  | none => rw [WriteHeader_Write_of_none w rt c b hw]; exact ⟨rfl, rfl⟩
  | some c1 =>
    have hwh : w.WriteHeader c = w := by
      unfold ResponseWriter.WriteHeader
      rw [hw]
    rw [hwh, Write_of_some w rt b c1 hw]
    exact ⟨rfl, rfl⟩

/-- The fast path, in terms of the response `DoRequest` returned. -/
theorem Handler_fast_branch (p : ProxyClient) (gz : Gzip) (rt : Runtime) (net : Upstream)
    (r : InboundRequest) (hcode : 500 < (p.DoRequest net r.URL).StatusCode) :
    (p.Handler gz rt net NewRecorder r).status = (p.DoRequest net r.URL).StatusCode ∧
    (p.Handler gz rt net NewRecorder r).Body = (p.DoRequest net r.URL).Body ∧
    (p.Handler gz rt net NewRecorder r).HeaderMap = [] := by
  rw [Handler_eq, if_pos hcode]
  refine ⟨ioCopy_status_of_some _ _ _ _ rfl, ?_, ?_⟩
  · rw [ioCopy_Body]; rfl
  · rw [ioCopy_HeaderMap_of_some _ _ _ (p.DoRequest net r.URL).StatusCode rfl]; rfl

/-- Below the fast path the status code does not influence the headers or the
body the handler writes. -/
theorem Handler_standard_status_irrelevant (p : ProxyClient) (gz : Gzip) (rt : Runtime)
    (net net1 : Upstream) (r : InboundRequest)
    (hcode : (p.DoRequest net r.URL).StatusCode ≤ 500)
    (hcode1 : (p.DoRequest net1 r.URL).StatusCode ≤ 500)
    (hh : (p.DoRequest net1 r.URL).Header = (p.DoRequest net r.URL).Header)
    (hb : (p.DoRequest net1 r.URL).Body = (p.DoRequest net r.URL).Body) :
    (p.Handler gz rt net1 NewRecorder r).HeaderMap =
      (p.Handler gz rt net NewRecorder r).HeaderMap ∧
    (p.Handler gz rt net1 NewRecorder r).Body = (p.Handler gz rt net NewRecorder r).Body := by
  have hnot : ¬ (p.DoRequest net r.URL).StatusCode > 500 := by omega
  have hnot1 : ¬ (p.DoRequest net1 r.URL).StatusCode > 500 := by omega
  rw [Handler_eq, Handler_eq, if_neg hnot, if_neg hnot1, hh, hb]
  split
  · exact ⟨rfl, rfl⟩
  · split
    · refine ⟨?_, ?_⟩
      · rw [(Write_after_WriteHeader _ _ _ _).1, (Write_after_WriteHeader _ _ _ _).1]
      · rw [(Write_after_WriteHeader _ _ _ _).2, (Write_after_WriteHeader _ _ _ _).2]
    · exact ⟨rfl, rfl⟩

/-- Claim C5. The fast path is taken exactly for a status above 500. Above 500
the outbound status is that code, the body is the response body verbatim and no
header is forwarded, whatever the headers and the inbound `Accept-Encoding`. At
500 and below every upstream header is copied (`Content-Encoding` and
`Content-Length` being overridden when the proxy compresses) and the
compression negotiation applies: an already gzipped response or a caller
without gzip gets the body verbatim, a gzip caller gets the compressed body
with `Content-Encoding` and `Content-Length` set; and the headers and body
written are the same for every status code at most 500, so 500 is treated as
any status below it. -/
theorem Handler_fast_path_boundary (p : ProxyClient) (gz : Gzip) (rt : Runtime)
    (net : Upstream) (r : InboundRequest) (resp : Response)
    (hresp : p.DoRequest net r.URL = resp) :
    (500 < resp.StatusCode →
      (p.Handler gz rt net NewRecorder r).status = resp.StatusCode ∧
      (p.Handler gz rt net NewRecorder r).Body = resp.Body ∧
      (p.Handler gz rt net NewRecorder r).HeaderMap = []) ∧
    (resp.StatusCode ≤ 500 → resp.Header.WF →
      (∀ k vs, List.lookup k resp.Header = some vs →
        k ≠ "Content-Encoding" → k ≠ "Content-Length" →
        List.lookup k (p.Handler gz rt net NewRecorder r).HeaderMap = some [vs.headD ""]) ∧
      ((∃ e ∈ resp.Header, e.2.head? = some "gzip") ∨
          stringsContains (r.Header.Get "Accept-Encoding") "gzip" = false →
        (p.Handler gz rt net NewRecorder r).Body = resp.Body ∧
        (∀ k vs, List.lookup k resp.Header = some vs →
          List.lookup k (p.Handler gz rt net NewRecorder r).HeaderMap = some [vs.headD ""]) ∧
        (∀ k, k ≠ "Content-Type" →
          List.lookup k (p.Handler gz rt net NewRecorder r).HeaderMap =
            (List.lookup k resp.Header).map (fun vs => [vs.headD ""]))) ∧
      ((∀ e ∈ resp.Header, e.2.head? ≠ some "gzip") →
          stringsContains (r.Header.Get "Accept-Encoding") "gzip" = true →
        (p.Handler gz rt net NewRecorder r).status = resp.StatusCode ∧
        (p.Handler gz rt net NewRecorder r).Body = gz.compress resp.Body ∧
        List.lookup "Content-Encoding" (p.Handler gz rt net NewRecorder r).HeaderMap =
          some ["gzip"] ∧
        List.lookup "Content-Length" (p.Handler gz rt net NewRecorder r).HeaderMap =
          some [sprintfD (gz.compress resp.Body).length] ∧
        (∀ k, k ≠ "Content-Encoding" → k ≠ "Content-Length" →
          List.lookup k (p.Handler gz rt net NewRecorder r).HeaderMap =
            (List.lookup k resp.Header).map (fun vs => [vs.headD ""])))) ∧
    (resp.StatusCode ≤ 500 →
      ∀ net1 : Upstream, (p.DoRequest net1 r.URL).StatusCode ≤ 500 →
        (p.DoRequest net1 r.URL).Header = resp.Header →
        (p.DoRequest net1 r.URL).Body = resp.Body →
        (p.Handler gz rt net1 NewRecorder r).HeaderMap =
          (p.Handler gz rt net NewRecorder r).HeaderMap ∧
        (p.Handler gz rt net1 NewRecorder r).Body =
          (p.Handler gz rt net NewRecorder r).Body) := by
  subst hresp
  have hcopied : (p.DoRequest net r.URL).StatusCode ≤ 500 → (p.DoRequest net r.URL).Header.WF →
      (∃ e ∈ (p.DoRequest net r.URL).Header, e.2.head? = some "gzip") ∨
        stringsContains (r.Header.Get "Accept-Encoding") "gzip" = false →
      ∀ k vs, List.lookup k (p.DoRequest net r.URL).Header = some vs →
        List.lookup k (p.Handler gz rt net NewRecorder r).HeaderMap = some [vs.headD ""] := by
    intro hcode hwf hcopy k vs hk
    obtain ⟨h1, h2, _⟩ :=
      copied_header_cases _ _ _ _ (Handler_copy_branch p gz rt net r hcode hwf hcopy).2.2
    by_cases hct : k = "Content-Type"
    · subst hct
      rw [h2 (Or.inl (by rw [hk]; simp)) "Content-Type", hk]; rfl
    · rw [h1 k hct, hk]; rfl
  refine ⟨Handler_fast_branch p gz rt net r, ?_, ?_⟩
  · intro hcode hwf
    refine ⟨?_, ?_, ?_⟩
    · intro k vs hk h1 h2
      by_cases hcopy : (∃ e ∈ (p.DoRequest net r.URL).Header, e.2.head? = some "gzip") ∨
          stringsContains (r.Header.Get "Accept-Encoding") "gzip" = false
      · exact hcopied hcode hwf hcopy k vs hk
      · rw [not_or] at hcopy
        have hplain : ∀ e ∈ (p.DoRequest net r.URL).Header, e.2.head? ≠ some "gzip" :=
          fun e he hg => hcopy.1 ⟨e, he, hg⟩
        have hacc : stringsContains (r.Header.Get "Accept-Encoding") "gzip" = true := by
          simpa using hcopy.2
        rw [(Handler_compress_branch p gz rt net r hcode hwf hplain hacc).2.2.2.2 k h1 h2, hk]
        rfl
    · intro hcopy
      obtain ⟨hb, _, hl⟩ := Handler_copy_branch p gz rt net r hcode hwf hcopy
      exact ⟨hb, hcopied hcode hwf hcopy, (copied_header_cases _ _ _ _ hl).1⟩
    · intro hplain hacc
      exact Handler_compress_branch p gz rt net r hcode hwf hplain hacc
  · intro hcode net1 hcode1 hh hb
    exact Handler_standard_status_irrelevant p gz rt net net1 r hcode hcode1 hh hb

theorem Handler_fast_path_boundary_witness :
    ((testClient.Handler storedGzip textRuntime
        (upstreamServing (upstreamResponse 503 (plainHeader 4) "down"))
        NewRecorder (inboundGet (some "gzip"))).status = 503 ∧
     (testClient.Handler storedGzip textRuntime
        (upstreamServing (upstreamResponse 503 (plainHeader 4) "down"))
        NewRecorder (inboundGet (some "gzip"))).Body = bytesOf "down" ∧
     (testClient.Handler storedGzip textRuntime
        (upstreamServing (upstreamResponse 503 (plainHeader 4) "down"))
        NewRecorder (inboundGet (some "gzip"))).HeaderMap = []) ∧
    ((testClient.Handler storedGzip textRuntime
        (upstreamServing (upstreamResponse 500 (plainHeader 4) "oops"))
        NewRecorder (inboundGet (some "gzip"))).status = 500 ∧
     (testClient.Handler storedGzip textRuntime
        (upstreamServing (upstreamResponse 500 (plainHeader 4) "oops"))
        NewRecorder (inboundGet (some "gzip"))).Body = storedGzip.compress (bytesOf "oops") ∧
     List.lookup "Content-Encoding" (testClient.Handler storedGzip textRuntime
        (upstreamServing (upstreamResponse 500 (plainHeader 4) "oops"))
        NewRecorder (inboundGet (some "gzip"))).HeaderMap = some ["gzip"] ∧
     List.lookup "Content-Length" (testClient.Handler storedGzip textRuntime
        (upstreamServing (upstreamResponse 500 (plainHeader 4) "oops"))
        NewRecorder (inboundGet (some "gzip"))).HeaderMap =
          some [sprintfD (storedGzip.compress (bytesOf "oops")).length] ∧
     ∀ k, k ≠ "Content-Encoding" → k ≠ "Content-Length" →
       List.lookup k (testClient.Handler storedGzip textRuntime
        (upstreamServing (upstreamResponse 500 (plainHeader 4) "oops"))
        NewRecorder (inboundGet (some "gzip"))).HeaderMap =
          (List.lookup k (plainHeader 4)).map (fun vs => [vs.headD ""])) :=
  ⟨(Handler_fast_path_boundary testClient storedGzip textRuntime
      (upstreamServing (upstreamResponse 503 (plainHeader 4) "down")) (inboundGet (some "gzip"))
      (upstreamResponse 503 (plainHeader 4) "down") rfl).1 (by decide),
   ((Handler_fast_path_boundary testClient storedGzip textRuntime
      (upstreamServing (upstreamResponse 500 (plainHeader 4) "oops")) (inboundGet (some "gzip"))
      (upstreamResponse 500 (plainHeader 4) "oops") rfl).2.1 (by decide) (by decide)).2.2
      (by decide) (by decide)⟩

theorem DoRequest_of_timeout (p : ProxyClient) (net : Upstream) (uri : URL) (err : NetError)
    (hnew : net.NewRequestError (p.buildURL uri.Path uri.RawQuery) = none)
    (hdo : net.Do (p.upstreamRequest (p.buildURL uri.Path uri.RawQuery)) = .error err)
    (ht : err.Timeout = true) :
    p.DoRequest net uri =
      p.ErrorResponse "504 Proxy Timeout" 504 (bytesOf "Proxy Timeout")
        (some (p.upstreamRequest (p.buildURL uri.Path uri.RawQuery))) := by
  simp only [ProxyClient.DoRequest, hnew, hdo, ht, if_true]

/-- Claim C6. For every inbound request, when the upstream call fails with a
transport error that is a timeout, `DoRequest` returns the synthetic
`504 Proxy Timeout` and the handler delivers status 504, the body
`"Proxy Timeout"` and an empty header set. -/
theorem Handler_timeout_gives_504 (p : ProxyClient) (gz : Gzip) (rt : Runtime) (net : Upstream)
    (r : InboundRequest) (err : NetError)
    (hnew : net.NewRequestError (p.buildURL r.URL.Path r.URL.RawQuery) = none)
    (hdo : net.Do (p.upstreamRequest (p.buildURL r.URL.Path r.URL.RawQuery)) = .error err)
    (ht : err.Timeout = true) :
    (p.DoRequest net r.URL).StatusCode = 504 ∧
    (p.DoRequest net r.URL).Status = "504 Proxy Timeout" ∧
    (p.Handler gz rt net NewRecorder r).status = 504 ∧
    (p.Handler gz rt net NewRecorder r).Body = bytesOf "Proxy Timeout" ∧
    (p.Handler gz rt net NewRecorder r).HeaderMap = [] := by
  have hd := DoRequest_of_timeout p net r.URL err hnew hdo ht
  have hc : 500 < (p.DoRequest net r.URL).StatusCode := by
    rw [hd]; simp [ProxyClient.ErrorResponse]
  obtain ⟨h1, h2, h3⟩ := Handler_fast_branch p gz rt net r hc
  rw [hd] at h1 h2
  exact ⟨by rw [hd]; rfl, by rw [hd]; rfl, h1, h2, h3⟩

theorem Handler_timeout_gives_504_witness :
    (testClient.DoRequest (upstreamFailing { Timeout := true, Error := "context deadline exceeded" })
      (inboundGet (some "gzip")).URL).StatusCode = 504 ∧
    (testClient.DoRequest (upstreamFailing { Timeout := true, Error := "context deadline exceeded" })
      (inboundGet (some "gzip")).URL).Status = "504 Proxy Timeout" ∧
    (testClient.Handler storedGzip textRuntime
      (upstreamFailing { Timeout := true, Error := "context deadline exceeded" })
      NewRecorder (inboundGet (some "gzip"))).status = 504 ∧
    (testClient.Handler storedGzip textRuntime
      (upstreamFailing { Timeout := true, Error := "context deadline exceeded" })
      NewRecorder (inboundGet (some "gzip"))).Body = bytesOf "Proxy Timeout" ∧
    (testClient.Handler storedGzip textRuntime
      (upstreamFailing { Timeout := true, Error := "context deadline exceeded" })
      NewRecorder (inboundGet (some "gzip"))).HeaderMap = [] :=
  Handler_timeout_gives_504 testClient storedGzip textRuntime
    (upstreamFailing { Timeout := true, Error := "context deadline exceeded" })
    (inboundGet (some "gzip")) { Timeout := true, Error := "context deadline exceeded" }
    rfl rfl rfl

/-- Claim C8. For every base address, path and query, `buildURL` returns
`base ++ path` for the empty query and `base ++ path ++ "?" ++ query` otherwise;
character by character the result is the base, the path and, after a `?`, the
query, none of them rewritten. -/
theorem buildURL_concatenates (p : ProxyClient) (path query : String) :
    p.buildURL path "" = p.baseURL ++ path ∧
    (query ≠ "" → p.buildURL path query = p.baseURL ++ path ++ "?" ++ query) ∧
    (p.buildURL path query).toList =
      p.baseURL.toList ++ path.toList ++ (if query = "" then [] else '?' :: query.toList) := by
  refine ⟨by simp [ProxyClient.buildURL], ?_, ?_⟩
  · intro hq
    simp [ProxyClient.buildURL, hq]
  · by_cases hq : query = ""
    · simp [ProxyClient.buildURL, hq]
    · simp [ProxyClient.buildURL, hq, String.toList]

theorem buildURL_concatenates_witness :
    testClient.buildURL "/resources/1" "" = "http://127.0.0.1:8080/resources/1" ∧
    testClient.buildURL "/resources/1" "a=1&b=2" = "http://127.0.0.1:8080/resources/1?a=1&b=2" ∧
    testClient.buildURL "/a b/%2F" "q=%20&r=é" = "http://127.0.0.1:8080/a b/%2F?q=%20&r=é" :=
  ⟨(buildURL_concatenates testClient "/resources/1" "").1,
   (buildURL_concatenates testClient "/resources/1" "a=1&b=2").2.1 (by decide),
   (buildURL_concatenates testClient "/a b/%2F" "q=%20&r=é").2.1 (by decide)⟩

/-- Claim C9. `NewProxyClient` fails with `username is required` whenever the
username is empty (or absent), whatever the password; it fails with
`password is required` exactly when the username is non-empty and the password
is empty; it succeeds exactly when both are non-empty, and the client then
holds the configured username and password. -/
theorem NewProxyClient_requires_credentials (cfg : Settings) :
    (viperGetString cfg.username = "" →
      NewProxyClient cfg = .error "username is required") ∧
    (NewProxyClient cfg = .error "password is required" ↔
      viperGetString cfg.username ≠ "" ∧ viperGetString cfg.password = "") ∧
    ((∃ c, NewProxyClient cfg = .ok c) ↔
      viperGetString cfg.username ≠ "" ∧ viperGetString cfg.password ≠ "") ∧
    (∀ c, NewProxyClient cfg = .ok c →
      c.username = viperGetString cfg.username ∧ c.password = viperGetString cfg.password) := by
  by_cases hu : viperGetString cfg.username = ""
  · simp [NewProxyClient, hu]
  · by_cases hp : viperGetString cfg.password = ""
    · simp [NewProxyClient, hu, hp]
    · simp only [NewProxyClient, hu, hp, if_false]
      refine ⟨by simp, by simp, by simp [hu, hp], ?_⟩
      intro c hc
      cases hc
      exact ⟨rfl, rfl⟩

theorem NewProxyClient_requires_credentials_witness :
    NewProxyClient { http_timeout := none, username := none, password := some "secret" } =
      .error "username is required" ∧
    NewProxyClient { http_timeout := none, username := some "testuser", password := none } =
      .error "password is required" ∧
    (∃ c, NewProxyClient
      { http_timeout := some 60, username := some "testuser", password := some "secret" } =
        .ok c) :=
  ⟨(NewProxyClient_requires_credentials
      { http_timeout := none, username := none, password := some "secret" }).1 rfl,
   (NewProxyClient_requires_credentials
      { http_timeout := none, username := some "testuser", password := none }).2.1.mpr
      ⟨by decide, rfl⟩,
   (NewProxyClient_requires_credentials
      { http_timeout := some 60, username := some "testuser", password := some "secret" }).2.2.1.mpr
      ⟨by decide, by decide⟩⟩

theorem wrapInt64_of_range (x : Int) (h1 : -9223372036854775808 ≤ x)
    (h2 : x < 9223372036854775808) : wrapInt64 x = x := by
  unfold wrapInt64
  norm_num
  omega

/-- Claim C10, as amended. With non-empty credentials `NewProxyClient` succeeds,
and the client's timeout is 30 seconds when `http_timeout` is absent or zero,
and exactly `t` seconds for a configured `t` other than zero with
`-9223372036 ≤ t ≤ 9223372036`, the range in which `t` seconds is a signed
64-bit number of nanoseconds. -/
theorem NewProxyClient_timeout (cfg : Settings)
    (hu : viperGetString cfg.username ≠ "") (hp : viperGetString cfg.password ≠ "") :
    ∃ c, NewProxyClient cfg = .ok c ∧
      (cfg.http_timeout = none ∨ cfg.http_timeout = some 0 →
        c.client.Timeout = 30 * timeSecond) ∧
      (∀ t : Int, cfg.http_timeout = some t → t ≠ 0 →
        -9223372036 ≤ t → t ≤ 9223372036 → c.client.Timeout = t * timeSecond) := by
  refine ⟨_, by simp only [NewProxyClient, hu, hp, if_false]; rfl, ?_, ?_⟩
  · rintro (h | h) <;> simp [h, viperGetInt] <;> decide
  · intro t ht h0 h1 h2
    simp only [ht, viperGetInt, Option.getD_some, h0, if_false, secondsDuration, timeSecond]
    rw [wrapInt64_of_range t (by omega) (by omega), wrapInt64_of_range _ (by omega) (by omega)]
    ring

theorem NewProxyClient_timeout_witness :
    ∃ c, NewProxyClient
        { http_timeout := some 60, username := some "testuser", password := some "secret" } =
          .ok c ∧
      c.client.Timeout = 60 * timeSecond :=
  (NewProxyClient_timeout
    { http_timeout := some 60, username := some "testuser", password := some "secret" }
    (by decide) (by decide)).imp
    fun _ h => ⟨h.1, h.2.2 60 rfl (by decide) (by decide) (by decide)⟩

/-- Claim C10 fails as stated. With `http_timeout` set to 9223372037 the product
`time.Second * time.Duration(timeout)` wraps around in `int64`: the client's
timeout is a negative duration, not 9223372037 seconds. -/
theorem NewProxyClient_timeout_overflows :
    ∃ c, NewProxyClient
        { http_timeout := some 9223372037, username := some "testuser",
          password := some "secret" } = .ok c ∧
      c.client.Timeout = -9223372036709551616 ∧
      c.client.Timeout ≠ 9223372037 * timeSecond :=
  ⟨_, rfl, by decide, by decide⟩

end Od2kproxy
